import Mathlib

/-!
Shallow embedding of the `realtime-orders-system` propagation pipeline
(`models.py`, `event_listener.py`, `websocket_manager.py`, `main.py`,
`database/connection.py`).

External effects (the MySQL store, `json.loads`, the websocket transport)
are modelled as explicit oracle parameters returning `Except`/`Bool`
outcomes; Python exceptions are modelled as `Except.error`.
-/

namespace RealtimeOrders

/-- A JSON value, the result of `json.loads` and the payload carried in
`WebSocketMessage.data` / `OrderChange.old_data`. -/
inductive Json where
  | null : Json
  | str (s : String) : Json
  | num (n : Int) : Json
  | bool (b : Bool) : Json
  | arr (xs : List Json) : Json
  | obj (fields : List (String × Json)) : Json

/-- `status ∈ {pending, shipped, delivered}` (`models.py`, `Order.status`). -/
inductive OrderStatus where
  | pending | shipped | delivered
deriving DecidableEq, Repr

/-- `operation_type ∈ {INSERT, UPDATE, DELETE}` (`models.py`, `OrderChange.operation_type`). -/
inductive Operation where
  | INSERT | UPDATE | DELETE
deriving DecidableEq, Repr

/-- `Order` pydantic model (`models.py`). Timestamps are epoch naturals. -/
structure Order where
  id : Nat
  customer_name : String
  product_name : String
  status : OrderStatus
  created_at : Nat
  updated_at : Nat
deriving DecidableEq, Repr

/-- A raw row of the `order_changes` table as returned by the
`get_unprocessed_changes` SELECT (`database/connection.py`):
`old_data`/`new_data` are still serialized strings (nullable). -/
structure DbChangeRow where
  id : Nat
  order_id : Nat
  operation_type : String
  old_data : Option String
  new_data : Option String
  changed_at : Nat
deriving DecidableEq, Repr

/-- `OrderChange` pydantic model (`models.py`): payloads parsed to dicts. -/
structure OrderChange where
  id : Nat
  order_id : Nat
  operation_type : Operation
  old_data : Option (List (String × Json))
  new_data : Option (List (String × Json))
  changed_at : Nat

/-- pydantic validation of the `Literal['INSERT','UPDATE','DELETE']` field. -/
def parseOperation : String → Except String Operation
  | "INSERT" => .ok .INSERT
  | "UPDATE" => .ok .UPDATE
  | "DELETE" => .ok .DELETE
  | s => .error ("invalid operation_type: " ++ s)

/-- `json.loads(row[k]) if row[k] else None` followed by pydantic's
`Dict[str, Any]` validation: a Python-falsy value (SQL NULL or the empty
string) yields `None`; otherwise the payload is parsed by the `jsonLoads`
oracle and must be a JSON object. -/
def parsePayload (jsonLoads : String → Except String Json) :
    Option String → Except String (Option (List (String × Json)))
  | none => .ok none
  | some s =>
    if s = "" then .ok none
    else
      match jsonLoads s with
      | .error e => .error e
      | .ok (Json.obj fields) => .ok (some fields)
      | .ok _ => .error "payload is not a JSON object"

/-- `OrderChange.from_db_row` (`models.py`, lines 36-46). `jsonLoads` is the
`json.loads` oracle; any raised error propagates. -/
def OrderChange.from_db_row (jsonLoads : String → Except String Json)
    (row : DbChangeRow) : Except String OrderChange :=
  match parseOperation row.operation_type with
  | .error e => .error e
  | .ok op =>
    match parsePayload jsonLoads row.old_data with
    | .error e => .error e
    | .ok old =>
      match parsePayload jsonLoads row.new_data with
      | .error e => .error e
      | .ok new =>
        .ok { id := row.id
              order_id := row.order_id
              operation_type := op
              old_data := old
              new_data := new
              changed_at := row.changed_at }

/-- `OrderChangeNotification` pydantic model (`models.py`). -/
structure OrderChangeNotification where
  change_id : Nat
  order_id : Nat
  operation : Operation
  order_data : Option Order
  previous_data : Option (List (String × Json))
  timestamp : Nat

/-- `EventListener._create_notification` (`event_listener.py`, lines 98-115).
`getOrderById` is the `db_manager.get_order_by_id` oracle (may raise, may
miss). Besides the notification, the result records the trace of order-id
lookups issued to the store, so that "no lookup is performed" is a provable
statement. -/
def createNotification (getOrderById : Nat → Except String (Option Order))
    (change : OrderChange) :
    Except String (OrderChangeNotification × List Nat) :=
  if change.operation_type = Operation.INSERT ∨
      change.operation_type = Operation.UPDATE then
    match getOrderById change.order_id with
    | .error e => .error e
    | .ok orderRow =>
      .ok ({ change_id := change.id
             order_id := change.order_id
             operation := change.operation_type
             order_data := orderRow
             previous_data := change.old_data
             timestamp := change.changed_at },
           [change.order_id])
  else
    .ok ({ change_id := change.id
           order_id := change.order_id
           operation := change.operation_type
           order_data := none
           previous_data := change.old_data
           timestamp := change.changed_at },
         [])

/-! ## NotificationBus (`event_listener.py`)

Subscriber callbacks are identified by an abstract type `σ` (Python compares
callbacks with `==`/identity); their behaviour when invoked is the oracle
`run : σ → OrderChangeNotification → Except String Unit`. -/

/-- `EventListener.subscribe` (`event_listener.py`, lines 22-25): append. -/
def subscribe {σ : Type} (subs : List σ) (c : σ) : List σ := subs ++ [c]

/-- `EventListener.unsubscribe` (`event_listener.py`, lines 27-31):
`if callback in self.subscribers: self.subscribers.remove(callback)` —
`list.remove` deletes the first occurrence. -/
def unsubscribe {σ : Type} [DecidableEq σ] (subs : List σ) (c : σ) : List σ :=
  if c ∈ subs then subs.erase c else subs

/-- The callbacks dispatched by one `_notify_subscribers` call, in order:
empty list short-circuits, otherwise one task per member of the snapshot
copy `self.subscribers.copy()` (`event_listener.py`, lines 117-127). -/
def publishDispatches {σ : Type} (subs : List σ) : List σ :=
  if subs.isEmpty then [] else subs

/-- `EventListener._notify_subscribers` (`event_listener.py`, lines 117-138).
The outer `Except` is whether the call itself raises; the inner list is the
per-subscriber outcome collected by `asyncio.gather(..., return_exceptions=True)`
(an `Except.error` entry is a subscriber exception that was logged only). -/
def notifySubscribers {σ : Type}
    (run : σ → OrderChangeNotification → Except String Unit)
    (subs : List σ) (n : OrderChangeNotification) :
    Except String (List (Except String Unit)) :=
  if subs.isEmpty then .ok []
  else .ok ((publishDispatches subs).map (fun s => run s n))

/-! ## Change-log table and poll cycle
(`database/connection.py`, `event_listener.py`) -/

/-- `ORDER BY changed_at ASC, id ASC` comparator of the poll query. -/
def changeRowLE (a b : DbChangeRow) : Bool :=
  decide (a.changed_at < b.changed_at ∨
    (a.changed_at = b.changed_at ∧ a.id ≤ b.id))

/-- `DatabaseManager.get_unprocessed_changes` (`database/connection.py`,
lines 76-85): rows with `processed = FALSE`, ordered
`(changed_at ASC, id ASC)`, `LIMIT 100`. The table is the `order_changes`
relation: each element a row plus its `processed` flag. -/
def get_unprocessed_changes (table : List (DbChangeRow × Bool)) :
    List DbChangeRow :=
  ((((table.filter (fun p => p.2 = false)).map Prod.fst).mergeSort
      changeRowLE).take 100)

/-- `DatabaseManager.mark_changes_processed` (`database/connection.py`,
lines 87-96): `UPDATE order_changes SET processed = TRUE WHERE id IN (...)`. -/
def mark_changes_processed (table : List (DbChangeRow × Bool))
    (change_ids : List Nat) : List (DbChangeRow × Bool) :=
  table.map (fun p => if p.1.id ∈ change_ids then (p.1, true) else p)

/-- The per-batch body of `EventListener._listen_loop` (`event_listener.py`,
lines 70-82): each row independently parsed, enriched, published; a raise in
any of the three steps skips only that row's `processed_ids.append`. -/
def processChangeRow {σ : Type} (jsonLoads : String → Except String Json)
    (getOrderById : Nat → Except String (Option Order))
    (run : σ → OrderChangeNotification → Except String Unit) (subs : List σ)
    (processed_ids : List Nat) (change_row : DbChangeRow) : List Nat :=
  match OrderChange.from_db_row jsonLoads change_row with
  | .error _ => processed_ids
  | .ok change =>
    match createNotification getOrderById change with
    | .error _ => processed_ids
    | .ok (notification, _) =>
      match notifySubscribers run subs notification with
      | .error _ => processed_ids
      | .ok _ => processed_ids ++ [change.id]

/-- The `processed_ids` accumulated by one batch. -/
def processChanges {σ : Type} (jsonLoads : String → Except String Json)
    (getOrderById : Nat → Except String (Option Order))
    (run : σ → OrderChangeNotification → Except String Unit) (subs : List σ)
    (changes : List DbChangeRow) : List Nat :=
  changes.foldl (processChangeRow jsonLoads getOrderById run subs) []

/-- One poll cycle of `EventListener._listen_loop` (`event_listener.py`,
lines 62-89) over the change-log table: fetch, process, and
`if processed_ids: mark_changes_processed(processed_ids)`. Returns the
resulting table and the trace of `mark_changes_processed` calls with their
id-list arguments. -/
def pollCycle {σ : Type} (jsonLoads : String → Except String Json)
    (getOrderById : Nat → Except String (Option Order))
    (run : σ → OrderChangeNotification → Except String Unit) (subs : List σ)
    (table : List (DbChangeRow × Bool)) :
    List (DbChangeRow × Bool) × List (List Nat) :=
  let changes := get_unprocessed_changes table
  if changes.isEmpty then (table, [])
  else
    let processed_ids := processChanges jsonLoads getOrderById run subs changes
    if processed_ids.isEmpty then (table, [])
    else (mark_changes_processed table processed_ids, [processed_ids])

/-! ## ConnectionRegistry (`websocket_manager.py`)

Connections are identified by `Nat`; transport outcomes are oracles. -/

/-- Per-connection metadata (`websocket_manager.py`, lines 28-31). -/
structure ConnInfo where
  connected_at : Nat
  client_info : String
deriving DecidableEq, Repr

/-- `WebSocketManager` state (`websocket_manager.py`, lines 18-20):
`active_connections : Set[WebSocket]` and
`connection_info : Dict[WebSocket, ...]`. The set is a duplicate-free list;
the dict an association list with unique keys. -/
structure WSState where
  active_connections : List Nat
  connection_info : List (Nat × ConnInfo)
deriving DecidableEq, Repr

/-- The freshly constructed manager: both containers empty. -/
def WSState.init : WSState := { active_connections := [], connection_info := [] }

/-- Python dict assignment `m[k] = v`: replace in place when the key is
present, append otherwise. -/
def dictInsert (k : Nat) (v : ConnInfo) (m : List (Nat × ConnInfo)) :
    List (Nat × ConnInfo) :=
  if m.any (fun p => p.1 = k) then
    m.map (fun p => if p.1 = k then (k, v) else p)
  else m ++ [(k, v)]

/-- State effect of `WebSocketManager.connect` (`websocket_manager.py`,
lines 22-31): `active_connections.add(websocket)` (set add — no duplicate)
and `connection_info[websocket] = {...}`. -/
def connectState (st : WSState) (c : Nat) (info : ConnInfo) : WSState :=
  { active_connections :=
      if c ∈ st.active_connections then st.active_connections
      else st.active_connections ++ [c]
    connection_info := dictInsert c info st.connection_info }

/-- `WebSocketManager.disconnect` (`websocket_manager.py`, lines 38-43):
remove from the set and `connection_info.pop(websocket, None)` if present. -/
def disconnect (st : WSState) (c : Nat) : WSState :=
  if c ∈ st.active_connections then
    { active_connections := st.active_connections.erase c
      connection_info := st.connection_info.eraseP (fun p => p.1 = c) }
  else st

/-- `WebSocketManager._broadcast_message` (`websocket_manager.py`,
lines 107-126). `send c = true` means `_send_message_safe` delivered the
single serialized payload to connection `c`; `false` means the send raised
(any exception), which adds `c` to `disconnected_clients`. Removal runs
only after `asyncio.gather` has awaited every send task. Returns the new
state and the snapshot of connections to which delivery was attempted. -/
def broadcastMessage (send : Nat → Bool) (st : WSState) :
    WSState × List Nat :=
  if st.active_connections.isEmpty then (st, [])
  else
    let snapshot := st.active_connections
    let disconnected_clients := snapshot.filter (fun c => !(send c))
    (disconnected_clients.foldl disconnect st, snapshot)

/-- The registry operations whose interleavings drive the manager state. -/
inductive WSOp where
  | connect (c : Nat) (info : ConnInfo)
  | disconnect (c : Nat)
  | broadcast (send : Nat → Bool)

/-- Apply one registry operation to the manager state. -/
def applyOp (st : WSState) : WSOp → WSState
  | .connect c info => connectState st c info
  | .disconnect c => RealtimeOrders.disconnect st c
  | .broadcast send => (broadcastMessage send st).1

/-! ## WebSocket messages (`models.py`, `websocket_manager.py`, `main.py`)

`iso : Nat → String` is the `datetime.isoformat` rendering of an epoch
timestamp, kept abstract. -/

/-- `type ∈ {order_change, initial_data, heartbeat, error}`
(`models.py`, `WebSocketMessage.type`). -/
inductive MsgType where
  | order_change | initial_data | heartbeat | error
deriving DecidableEq, Repr

/-- `WebSocketMessage` pydantic model (`models.py`, lines 48-52);
`timestamp` is the construction-time `datetime.utcnow()`. -/
structure WebSocketMessage where
  type : MsgType
  data : Option Json
  timestamp : Nat

/-- Rendering of `Order.status` into the JSON sent to clients. -/
def OrderStatus.toStr : OrderStatus → String
  | .pending => "pending"
  | .shipped => "shipped"
  | .delivered => "delivered"

/-- One element of `orders_data` in `_send_initial_data`
(`websocket_manager.py`, lines 83-89): an order dict with datetime values
ISO-formatted. -/
def orderToJson (iso : Nat → String) (o : Order) : Json :=
  Json.obj [("id", Json.num o.id),
            ("customer_name", Json.str o.customer_name),
            ("product_name", Json.str o.product_name),
            ("status", Json.str o.status.toStr),
            ("created_at", Json.str (iso o.created_at)),
            ("updated_at", Json.str (iso o.updated_at))]

/-- The `initial_data` message of `_send_initial_data`
(`websocket_manager.py`, lines 91-94). -/
def initialDataMessage (iso : Nat → String) (orders : List Order)
    (now : Nat) : WebSocketMessage :=
  { type := .initial_data
    data := some (Json.obj [("orders", Json.arr (orders.map (orderToJson iso)))])
    timestamp := now }

/-- The `error` message of `_send_initial_data`'s except branch
(`websocket_manager.py`, lines 101-104). -/
def initialDataErrorMessage (now : Nat) : WebSocketMessage :=
  { type := .error
    data := some (Json.obj [("message", Json.str "Failed to load initial data")])
    timestamp := now }

/-- The heartbeat message of `WebSocketManager.send_heartbeat`
(`websocket_manager.py`, lines 70-73). -/
def sendHeartbeatMessage (iso : Nat → String) (now : Nat) : WebSocketMessage :=
  { type := .heartbeat
    data := some (Json.obj [("server_time", Json.str (iso now))])
    timestamp := now }

/-- The pong reply of the `/ws` endpoint (`main.py`, lines 110-113). -/
def pongMessage (now : Nat) : WebSocketMessage :=
  { type := .heartbeat
    data := some (Json.obj [("message", Json.str "pong")])
    timestamp := now }

/-- Python `dict.get(k)` on a parsed JSON object. -/
def getField (fields : List (String × Json)) (k : String) : Option Json :=
  (fields.find? (fun p => p.1 = k)).map Prod.snd

/-- The inbound-message handling of the `/ws` endpoint (`main.py`,
lines 107-116): the raw text is parsed by the `evalParse` oracle (the
source's `eval(data)`); only a dict whose `"type"` equals `"ping"` elicits
a reply, everything else (including a parse failure) is silently ignored.
Returns the reply message, if any. -/
def handleClientMessage (evalParse : String → Except String Json)
    (raw : String) (now : Nat) : Option WebSocketMessage :=
  match evalParse raw with
  | .error _ => none
  | .ok (Json.obj fields) =>
    match getField fields "type" with
    | some (Json.str s) => if s = "ping" then some (pongMessage now) else none
    | _ => none
  | .ok _ => none

/-- `WebSocketManager._send_initial_data` (`websocket_manager.py`,
lines 77-105). `fetchOrders` is the `db_manager.get_all_orders()` outcome;
`sendText m` the transport outcome of `websocket.send_text` for message
`m`. Returns the messages delivered to the connection (sends that
succeeded) and, when the except-branch error send itself raises, the
propagated error. The function never touches the registry state. -/
def sendInitialData (iso : Nat → String) (now : Nat)
    (fetchOrders : Except String (List Order))
    (sendText : WebSocketMessage → Except String Unit) :
    List WebSocketMessage × Option String :=
  match fetchOrders with
  | .ok orders =>
    let message := initialDataMessage iso orders now
    match sendText message with
    | .ok _ => ([message], none)
    | .error _ =>
      let error_message := initialDataErrorMessage now
      match sendText error_message with
      | .ok _ => ([error_message], none)
      | .error e => ([], some e)
  | .error _ =>
    let error_message := initialDataErrorMessage now
    match sendText error_message with
    | .ok _ => ([error_message], none)
    | .error e => ([], some e)

/-- `WebSocketManager.connect` (`websocket_manager.py`, lines 22-36):
register the accepted connection, then send it the initial snapshot.
Returns the new state, the messages delivered to the new connection, and
the error propagated out of `_send_initial_data`, if any. -/
def connect (iso : Nat → String) (now : Nat) (st : WSState) (c : Nat)
    (info : ConnInfo) (fetchOrders : Except String (List Order))
    (sendText : WebSocketMessage → Except String Unit) :
    WSState × List WebSocketMessage × Option String :=
  let st' := connectState st c info
  let (delivered, raised) := sendInitialData iso now fetchOrders sendText
  (st', delivered, raised)

/-! ## Helper lemmas -/

theorem notifySubscribers_eq {σ : Type}
    (run : σ → OrderChangeNotification → Except String Unit)
    (subs : List σ) (n : OrderChangeNotification) :
    notifySubscribers run subs n = .ok (subs.map (fun s => run s n)) := by
  unfold notifySubscribers publishDispatches
  cases subs <;> simp

/-- Sample subscriber semantics for concrete witnesses: callback `0` raises,
every other callback succeeds. -/
def runW : Nat → OrderChangeNotification → Except String Unit :=
  fun s _ => if s = 0 then .error "boom" else .ok ()

/-- A concrete notification for witnesses. -/
def sampleNotification : OrderChangeNotification :=
  { change_id := 1, order_id := 2, operation := .UPDATE,
    order_data := none, previous_data := none, timestamp := 0 }

/-! ## Claim C4 -/

/-- Claim C4: `_notify_subscribers` never raises to its caller; the result is the
full list of per-subscriber outcomes (a raising subscriber shows up as an
`Except.error` entry that is only logged), and the outcome at position `i`
is determined by subscriber `i` alone, so one raising callback does not
cancel or fail the dispatches to the other subscribers of the round. -/
theorem notify_subscribers_total_and_isolated {σ : Type}
    (run : σ → OrderChangeNotification → Except String Unit)
    (subs : List σ) (n : OrderChangeNotification) :
    notifySubscribers run subs n = .ok (subs.map (fun s => run s n)) ∧
    ∀ results, notifySubscribers run subs n = Except.ok results →
      ∀ i : Nat, results[i]? = (subs[i]?).map (fun s => run s n) := by
  refine ⟨notifySubscribers_eq run subs n, ?_⟩
  intro results hres i
  rw [notifySubscribers_eq run subs n] at hres
  cases hres
  exact (List.getElem?_map ..)

/-- Claim C4 witness: two subscribers, the first raises; the publish returns
`.ok` with both outcomes recorded individually. -/
theorem notify_subscribers_witness :
    notifySubscribers runW [0, 1] sampleNotification =
      .ok [Except.error "boom", Except.ok ()] ∧
    [Except.error "boom", Except.ok ()][1]? =
      ([0, 1][1]?).map (fun s => runW s sampleNotification) := by
  have h := notify_subscribers_total_and_isolated runW [0, 1] sampleNotification
  have h1 : notifySubscribers runW [0, 1] sampleNotification =
      .ok [Except.error "boom", Except.ok ()] := h.1
  exact ⟨h1, h.2 _ h1 1⟩

/-! ## Claim C8 -/

/-- Claim C8: `unsubscribe` of a callback not currently in the subscriber list
does not raise and leaves the list — hence the subscriber count —
unchanged. -/
theorem unsubscribe_absent_noop {σ : Type} [DecidableEq σ]
    (subs : List σ) (c : σ) (h : c ∉ subs) :
    unsubscribe subs c = subs ∧
    (unsubscribe subs c).length = subs.length := by
  unfold unsubscribe
  simp [h]

/-- Claim C8 witness. -/
theorem unsubscribe_absent_witness :
    (3 ∉ [1, 2]) ∧ (unsubscribe [1, 2] 3 = [1, 2] ∧
      (unsubscribe [1, 2] 3).length = [1, 2].length) :=
  ⟨by decide, unsubscribe_absent_noop [1, 2] 3 (by decide)⟩

/-! ## Claim C10 -/

theorem foldl_subscribe_eq {σ : Type} (subs : List σ) (l : List σ) :
    l.foldl subscribe subs = subs ++ l := by
  induction l generalizing subs with
  | nil => simp
  | cons x xs ih => simp [subscribe, ih]

/-- Claim C10: subscribing the same callback `n ≥ 1` times yields `n` occurrences
in the subscriber list, a publish dispatches to it `n` times, and a single
`unsubscribe` removes exactly one occurrence, leaving `n - 1`. -/
theorem subscribe_multiplicity {σ : Type} [DecidableEq σ]
    (subs : List σ) (c : σ) (n : Nat) (hn : 1 ≤ n) (hc : c ∉ subs) :
    ((List.replicate n c).foldl subscribe subs).count c = n ∧
    (publishDispatches ((List.replicate n c).foldl subscribe subs)).count c
      = n ∧
    (unsubscribe ((List.replicate n c).foldl subscribe subs) c).count c
      = n - 1 := by
  have hfold : (List.replicate n c).foldl subscribe subs
      = subs ++ List.replicate n c := foldl_subscribe_eq subs _
  have hczero : subs.count c = 0 := List.count_eq_zero.mpr hc
  have hcount : ((List.replicate n c).foldl subscribe subs).count c = n := by
    rw [hfold, List.count_append, hczero, List.count_replicate_self]
    omega
  refine ⟨hcount, ?_, ?_⟩
  · have hne : ((List.replicate n c).foldl subscribe subs).isEmpty = false := by
      rw [hfold]
      cases subs with
      | nil => cases n with
        | zero => omega
        | succ m => simp [List.replicate]
      | cons a l => simp
    unfold publishDispatches
    rw [hne]
    simp [hcount]
  · have hmem : c ∈ (List.replicate n c).foldl subscribe subs := by
      rw [hfold]
      refine List.mem_append_right _ ?_
      exact List.mem_replicate.mpr ⟨by omega, rfl⟩
    unfold unsubscribe
    rw [if_pos hmem, List.count_erase_self, hcount]

/-- C10 witness: the callback `7` subscribed twice next to `5`. -/
theorem subscribe_multiplicity_witness :
    (1 ≤ 2 ∧ 7 ∉ [5]) ∧
    (((List.replicate 2 7).foldl subscribe [5]).count 7 = 2 ∧
     (publishDispatches ((List.replicate 2 7).foldl subscribe [5])).count 7
       = 2 ∧
     (unsubscribe ((List.replicate 2 7).foldl subscribe [5]) 7).count 7
       = 2 - 1) :=
  ⟨⟨by decide, by decide⟩, subscribe_multiplicity [5] 7 2 (by decide) (by decide)⟩

/-! ## Claim C7 -/

/-- Claim C7: for a parsed change with operation DELETE the notification carries
`order_data = none` and `previous_data = old_data`, and no current-record
lookup is issued (empty lookup trace); for INSERT/UPDATE exactly one lookup
of the change's order id is issued, and a lookup miss yields
`order_data = none`. -/
theorem create_notification_enrichment
    (getOrderById : Nat → Except String (Option Order))
    (change : OrderChange) :
    (change.operation_type = Operation.DELETE →
      createNotification getOrderById change =
        .ok ({ change_id := change.id, order_id := change.order_id,
               operation := change.operation_type, order_data := none,
               previous_data := change.old_data,
               timestamp := change.changed_at }, [])) ∧
    ((change.operation_type = Operation.INSERT ∨
        change.operation_type = Operation.UPDATE) →
      (∀ res, createNotification getOrderById change = .ok res →
          res.2 = [change.order_id]) ∧
      (getOrderById change.order_id = .ok none →
        createNotification getOrderById change =
          .ok ({ change_id := change.id, order_id := change.order_id,
                 operation := change.operation_type, order_data := none,
                 previous_data := change.old_data,
                 timestamp := change.changed_at }, [change.order_id]))) := by
  constructor
  · intro hdel
    unfold createNotification
    rw [hdel]
    simp
  · intro hins
    have hcond : (change.operation_type = Operation.INSERT ∨
        change.operation_type = Operation.UPDATE) = True := by
      simp [hins]
    constructor
    · intro res hres
      unfold createNotification at hres
      rw [if_pos hins] at hres
      cases hget : getOrderById change.order_id with
      | error e => rw [hget] at hres; cases hres
      | ok v => rw [hget] at hres; cases hres; rfl
    · intro hmiss
      unfold createNotification
      rw [if_pos hins, hmiss]

/-- A concrete DELETE change for the C7 witness. -/
def sampleDeleteChange : OrderChange :=
  { id := 9, order_id := 2, operation_type := .DELETE,
    old_data := some [("status", Json.str "pending")], new_data := none,
    changed_at := 5 }

/-- Claim C7 witness: a concrete DELETE change yields `order_data = none`,
`previous_data` equal to its `old_data`, and an empty lookup trace. -/
theorem create_notification_witness :
    sampleDeleteChange.operation_type = Operation.DELETE ∧
    createNotification (fun _ => .ok none) sampleDeleteChange =
      .ok ({ change_id := 9, order_id := 2, operation := .DELETE,
             order_data := none,
             previous_data := some [("status", Json.str "pending")],
             timestamp := 5 }, []) :=
  ⟨rfl,
    (create_notification_enrichment (fun _ => .ok none) sampleDeleteChange).1
      rfl⟩

/-! ## Claim C5 -/

/-- The spec's required payload shape for heartbeat messages,
`heartbeat.data = { server_time }`, stated from the spec's words for
comparison with the messages the code actually builds. -/
def heartbeatDataSpec (m : WebSocketMessage) : Prop :=
  ∃ t, m.data = some (Json.obj [("server_time", Json.str t)])

/-- Claim C5 counterexample: the pong reply the `/ws` endpoint sends for an
inbound `{type:"ping"}` has type `heartbeat` but data `{message: "pong"}`,
not `{server_time}`. -/
theorem pong_violates_heartbeat_shape :
    (pongMessage 0).type = MsgType.heartbeat ∧
    ¬ heartbeatDataSpec (pongMessage 0) := by
  refine ⟨rfl, ?_⟩
  rintro ⟨t, ht⟩
  simp [pongMessage] at ht

/-- Claim C5 amended: the periodic heartbeat broadcast carries
`data = { server_time }`; the heartbeat/pong reply elicited by an inbound
`{type:"ping"}` message is also of type `heartbeat` but carries
`data = { message: "pong" }` instead. -/
theorem heartbeat_message_shapes (iso : Nat → String) (now : Nat)
    (evalParse : String → Except String Json) (raw : String)
    (fields : List (String × Json))
    (hp : evalParse raw = .ok (Json.obj fields))
    (hping : getField fields "type" = some (Json.str "ping")) :
    (sendHeartbeatMessage iso now).type = MsgType.heartbeat ∧
    heartbeatDataSpec (sendHeartbeatMessage iso now) ∧
    handleClientMessage evalParse raw now = some (pongMessage now) ∧
    (pongMessage now).type = MsgType.heartbeat ∧
    (pongMessage now).data = some (Json.obj [("message", Json.str "pong")]) := by
  refine ⟨rfl, ⟨iso now, rfl⟩, ?_, rfl, rfl⟩
  simp [handleClientMessage, hp, hping]

/-- Claim C5 witness for the amended claim, at a concrete ping payload. -/
theorem heartbeat_message_shapes_witness :
    ((fun _ : String => (Except.ok (Json.obj [("type", Json.str "ping")]) : Except String Json))
        "x" = (Except.ok (Json.obj [("type", Json.str "ping")]) : Except String Json) ∧
      getField [("type", Json.str "ping")] "type" = some (Json.str "ping")) ∧
    ((sendHeartbeatMessage (fun t => toString t) 3).type = MsgType.heartbeat ∧
     heartbeatDataSpec (sendHeartbeatMessage (fun t => toString t) 3) ∧
     handleClientMessage
        (fun _ => (.ok (Json.obj [("type", Json.str "ping")]) : Except String Json)) "x" 3 =
          some (pongMessage 3) ∧
     (pongMessage 3).type = MsgType.heartbeat ∧
     (pongMessage 3).data = some (Json.obj [("message", Json.str "pong")])) :=
  ⟨⟨rfl, rfl⟩,
    heartbeat_message_shapes (fun t => toString t) 3
      (fun _ => (.ok (Json.obj [("type", Json.str "ping")]) : Except String Json)) "x"
      [("type", Json.str "ping")] rfl rfl⟩

/-! ## Claim C6 -/

theorem mem_connectState_active (st : WSState) (c : Nat) (info : ConnInfo) :
    c ∈ (connectState st c info).active_connections := by
  unfold connectState
  by_cases h : c ∈ st.active_connections
  · simp only [if_pos h]
    exact h
  · simp [h]

/-- Claim C6: if fetching the initial snapshot or sending the `initial_data`
message raises and the replacement error send succeeds, the new connection
receives exactly one message — the error message with data
`{message: "Failed to load initial data"}` — nothing propagates, and the
registry state is exactly the post-registration state, so the connection is
still registered (not removed for this failure). -/
theorem connect_snapshot_failure_error_message (iso : Nat → String)
    (now : Nat) (st : WSState) (c : Nat) (info : ConnInfo)
    (fetchOrders : Except String (List Order))
    (sendText : WebSocketMessage → Except String Unit)
    (hfail : (∃ e, fetchOrders = .error e) ∨
      (∃ orders, fetchOrders = .ok orders ∧
        ∃ e, sendText (initialDataMessage iso orders now) = .error e))
    (herr : sendText (initialDataErrorMessage now) = .ok ()) :
    (connect iso now st c info fetchOrders sendText).1 = connectState st c info ∧
    c ∈ (connect iso now st c info fetchOrders sendText).1.active_connections ∧
    (connect iso now st c info fetchOrders sendText).2.1 =
      [initialDataErrorMessage now] ∧
    (initialDataErrorMessage now).type = MsgType.error ∧
    (initialDataErrorMessage now).data =
      some (Json.obj [("message", Json.str "Failed to load initial data")]) ∧
    (connect iso now st c info fetchOrders sendText).2.2 = none := by
  have hsend : sendInitialData iso now fetchOrders sendText =
      ([initialDataErrorMessage now], none) := by
    rcases hfail with ⟨e, he⟩ | ⟨orders, ho, e, he⟩
    · unfold sendInitialData
      rw [he]
      simp [herr]
    · unfold sendInitialData
      rw [ho]
      simp [he, herr]
  unfold connect
  rw [hsend]
  exact ⟨rfl, mem_connectState_active st c info, rfl, rfl, rfl, rfl⟩

/-- Claim C6 witness: a fresh registry, connection `1`, the snapshot fetch raises,
the error send succeeds. -/
theorem connect_snapshot_failure_witness :
    (((∃ e, (Except.error "db down" : Except String (List Order)) =
          .error e) ∨
       (∃ orders, (Except.error "db down" : Except String (List Order)) =
            .ok orders ∧
          ∃ e, (fun m : WebSocketMessage =>
              if m.type = MsgType.error then Except.ok () else .error "send")
              (initialDataMessage (fun t => toString t) orders 0) =
              .error e)) ∧
      (fun m : WebSocketMessage =>
          if m.type = MsgType.error then Except.ok () else .error "send")
        (initialDataErrorMessage 0) = .ok ()) ∧
    ((connect (fun t => toString t) 0 WSState.init 1
        ⟨0, "ua"⟩ (Except.error "db down")
        (fun m => if m.type = MsgType.error then Except.ok ()
          else .error "send")).1 =
        connectState WSState.init 1 ⟨0, "ua"⟩ ∧
      1 ∈ (connect (fun t => toString t) 0 WSState.init 1
        ⟨0, "ua"⟩ (Except.error "db down")
        (fun m => if m.type = MsgType.error then Except.ok ()
          else .error "send")).1.active_connections ∧
      (connect (fun t => toString t) 0 WSState.init 1
        ⟨0, "ua"⟩ (Except.error "db down")
        (fun m => if m.type = MsgType.error then Except.ok ()
          else .error "send")).2.1 = [initialDataErrorMessage 0] ∧
      (initialDataErrorMessage 0).type = MsgType.error ∧
      (initialDataErrorMessage 0).data =
        some (Json.obj [("message",
          Json.str "Failed to load initial data")]) ∧
      (connect (fun t => toString t) 0 WSState.init 1
        ⟨0, "ua"⟩ (Except.error "db down")
        (fun m => if m.type = MsgType.error then Except.ok ()
          else .error "send")).2.2 = none) :=
  ⟨⟨Or.inl ⟨"db down", rfl⟩, rfl⟩,
    connect_snapshot_failure_error_message (fun t => toString t) 0
      WSState.init 1 ⟨0, "ua"⟩ (Except.error "db down")
      (fun m => if m.type = MsgType.error then Except.ok () else .error "send")
      (Or.inl ⟨"db down", rfl⟩) rfl⟩

/-! ## Claim C3 -/

theorem disconnect_active (st : WSState) (c : Nat) :
    (disconnect st c).active_connections = st.active_connections.erase c := by
  unfold disconnect
  by_cases h : c ∈ st.active_connections
  · simp [h]
  · simp [h, List.erase_of_not_mem h]

theorem foldl_disconnect_active (l : List Nat) (st : WSState) :
    (l.foldl disconnect st).active_connections =
      l.foldl List.erase st.active_connections := by
  induction l generalizing st with
  | nil => rfl
  | cons x xs ih =>
    simp only [List.foldl_cons]
    rw [ih, disconnect_active]

theorem not_mem_foldl_erase_of_not_mem {a : Nat} (l acc : List Nat)
    (h : a ∉ acc) : a ∉ l.foldl List.erase acc := by
  induction l generalizing acc with
  | nil => exact h
  | cons x xs ih =>
    exact ih _ (fun hmem => h (List.mem_of_mem_erase hmem))

theorem mem_foldl_erase_of_not_mem {a : Nat} (l acc : List Nat)
    (hl : a ∉ l) : a ∈ l.foldl List.erase acc ↔ a ∈ acc := by
  induction l generalizing acc with
  | nil => exact Iff.rfl
  | cons x xs ih =>
    have hax : a ≠ x := fun h => hl (h ▸ List.mem_cons_self x xs)
    simp only [List.foldl_cons]
    rw [ih _ (fun h => hl (List.mem_cons_of_mem _ h))]
    exact List.mem_erase_of_ne hax

theorem not_mem_foldl_erase_of_mem {a : Nat} (l acc : List Nat)
    (hnd : acc.Nodup) (hl : a ∈ l) : a ∉ l.foldl List.erase acc := by
  induction l generalizing acc with
  | nil => cases hl
  | cons x xs ih =>
    simp only [List.foldl_cons]
    by_cases hax : a = x
    · subst hax
      exact not_mem_foldl_erase_of_not_mem _ _ hnd.not_mem_erase
    · exact ih _ (hnd.erase x) ((List.mem_cons.mp hl).resolve_left hax)

/-- Claim C3: in a broadcast round over a non-empty (duplicate-free) connection
set, delivery is attempted to the full starting snapshot — no removal is
interleaved with the fan-out — and when the round returns, every
connection whose send failed has been removed from the live set while
every connection whose send succeeded is still a member. -/
theorem broadcast_failure_removal (send : Nat → Bool) (st : WSState)
    (hnd : st.active_connections.Nodup)
    (hne : st.active_connections ≠ []) (c : Nat) :
    (broadcastMessage send st).2 = st.active_connections ∧
    (c ∈ st.active_connections → send c = false →
      c ∉ (broadcastMessage send st).1.active_connections) ∧
    (c ∈ st.active_connections → send c = true →
      c ∈ (broadcastMessage send st).1.active_connections) := by
  have hni : st.active_connections.isEmpty = false := by
    cases h : st.active_connections with
    | nil => exact absurd h hne
    | cons a l => rfl
  unfold broadcastMessage
  rw [hni]
  simp only [Bool.false_eq_true, if_false]
  refine ⟨by trivial, ?_, ?_⟩
  · intro hc hsend
    rw [foldl_disconnect_active]
    apply not_mem_foldl_erase_of_mem _ _ hnd
    exact List.mem_filter.mpr ⟨hc, by simp [hsend]⟩
  · intro hc hsend
    rw [foldl_disconnect_active]
    have hnf : c ∉ st.active_connections.filter (fun c => !(send c)) := by
      intro hmem
      have := (List.mem_filter.mp hmem).2
      simp [hsend] at this
    rw [mem_foldl_erase_of_not_mem _ _ hnf]
    exact hc

/-- Concrete two-connection registry state for the C3 witness. -/
def stW : WSState :=
  { active_connections := [1, 2]
    connection_info := [(1, ⟨0, "a"⟩), (2, ⟨0, "b"⟩)] }

/-- Claim C3 witness: connection 1's send succeeds, connection 2's send fails;
after the round, 2 is gone and 1 remains, and delivery was attempted to
both. -/
theorem broadcast_failure_removal_witness :
    (stW.active_connections.Nodup ∧ stW.active_connections ≠ []) ∧
    ((broadcastMessage (fun c => decide (c = 1)) stW).2 =
        stW.active_connections ∧
      (2 ∈ stW.active_connections → decide ((2 : Nat) = 1) = false →
        2 ∉ (broadcastMessage (fun c => decide (c = 1))
              stW).1.active_connections) ∧
      (2 ∈ stW.active_connections → decide ((2 : Nat) = 1) = true →
        2 ∈ (broadcastMessage (fun c => decide (c = 1))
              stW).1.active_connections)) :=
  ⟨⟨by decide, by decide⟩,
    broadcast_failure_removal (fun c => decide (c = 1)) stW
      (by decide) (by decide) 2⟩

/-! ## Claim C9 -/

/-- The key list of the `connection_info` association list. -/
def keysOf (m : List (Nat × ConnInfo)) : List Nat := m.map Prod.fst

/-- Internal well-formedness of the manager state: the connection set is
duplicate-free, the metadata dict has unique keys, and the two agree. -/
def WSInv (st : WSState) : Prop :=
  st.active_connections.Nodup ∧ (keysOf st.connection_info).Nodup ∧
    ∀ c, c ∈ st.active_connections ↔ c ∈ keysOf st.connection_info

theorem keysOf_dictInsert (k : Nat) (v : ConnInfo)
    (m : List (Nat × ConnInfo)) :
    keysOf (dictInsert k v m) =
      if k ∈ keysOf m then keysOf m else keysOf m ++ [k] := by
  unfold dictInsert keysOf
  by_cases h : k ∈ m.map Prod.fst
  · have hany : m.any (fun p => p.1 = k) = true := by
      simp only [List.any_eq_true, decide_eq_true_eq]
      obtain ⟨p, hp, he⟩ := List.mem_map.mp h
      exact ⟨p, hp, he⟩
    rw [if_pos h, hany]
    simp only [if_true, List.map_map]
    apply List.map_congr_left
    intro p _
    by_cases hp : p.1 = k
    · simp [hp]
    · simp [hp]
  · have hany : m.any (fun p => p.1 = k) = false := by
      rw [List.any_eq_false]
      intro p hp hpk
      exact h (List.mem_map.mpr ⟨p, hp, by simpa using hpk⟩)
    rw [if_neg h, hany]
    simp

theorem keysOf_eraseP (m : List (Nat × ConnInfo)) (c : Nat) :
    keysOf (m.eraseP (fun p => p.1 = c)) = (keysOf m).erase c := by
  induction m with
  | nil => rfl
  | cons p m ih =>
    by_cases hp : p.1 = c
    · simp [List.eraseP_cons, keysOf, hp]
    · simp only [List.eraseP_cons, decide_eq_true_eq, hp, decide_False,
        Bool.false_eq_true, if_false, keysOf, List.map_cons]
      rw [List.erase_cons_tail (by simpa using hp)]
      exact congrArg (p.1 :: ·) ih

theorem WSInv_init : WSInv WSState.init := by
  refine ⟨List.nodup_nil, List.nodup_nil, ?_⟩
  intro c
  simp [WSState.init, keysOf]

theorem WSInv_connectState (st : WSState) (c : Nat) (info : ConnInfo)
    (h : WSInv st) : WSInv (connectState st c info) := by
  obtain ⟨h1, h2, h3⟩ := h
  unfold connectState WSInv
  by_cases hc : c ∈ st.active_connections
  · have hk : c ∈ keysOf st.connection_info := (h3 c).mp hc
    rw [if_pos hc]
    refine ⟨h1, ?_, ?_⟩
    · rw [keysOf_dictInsert, if_pos hk]; exact h2
    · intro c'
      rw [keysOf_dictInsert, if_pos hk]
      exact h3 c'
  · have hk : c ∉ keysOf st.connection_info := fun hm => hc ((h3 c).mpr hm)
    rw [if_neg hc]
    refine ⟨?_, ?_, ?_⟩
    · simp [List.nodup_append, h1, hc]
    · rw [keysOf_dictInsert, if_neg hk]
      simp [List.nodup_append, h2, hk]
    · intro c'
      rw [keysOf_dictInsert, if_neg hk]
      simp only [List.mem_append, List.mem_singleton]
      exact or_congr (h3 c') Iff.rfl

theorem WSInv_disconnect (st : WSState) (c : Nat) (h : WSInv st) :
    WSInv (disconnect st c) := by
  obtain ⟨h1, h2, h3⟩ := h
  unfold disconnect
  by_cases hc : c ∈ st.active_connections
  · rw [if_pos hc]
    refine ⟨h1.erase c, ?_, ?_⟩
    · rw [keysOf_eraseP]; exact h2.erase c
    · intro c'
      rw [keysOf_eraseP, h1.mem_erase_iff, h2.mem_erase_iff]
      exact and_congr Iff.rfl (h3 c')
  · rw [if_neg hc]
    exact ⟨h1, h2, h3⟩

theorem WSInv_foldl_disconnect (l : List Nat) (st : WSState)
    (h : WSInv st) : WSInv (l.foldl disconnect st) := by
  induction l generalizing st with
  | nil => exact h
  | cons x xs ih => exact ih _ (WSInv_disconnect st x h)

theorem WSInv_applyOp (st : WSState) (op : WSOp) (h : WSInv st) :
    WSInv (applyOp st op) := by
  cases op with
  | connect c info => exact WSInv_connectState st c info h
  | disconnect c => exact WSInv_disconnect st c h
  | broadcast send =>
    unfold applyOp broadcastMessage
    by_cases he : st.active_connections.isEmpty
    · simp only [he, if_true]
      exact h
    · simp only [he, Bool.false_eq_true, if_false]
      exact WSInv_foldl_disconnect _ st h

theorem WSInv_foldl_applyOp (ops : List WSOp) (st : WSState)
    (h : WSInv st) : WSInv (ops.foldl applyOp st) := by
  induction ops generalizing st with
  | nil => exact h
  | cons op ops ih => exact ih _ (WSInv_applyOp st op h)

/-- Claim C9: after any sequence of connect, disconnect, and broadcast
operations starting from the fresh manager, the live connection set equals
the key set of the `connection_info` metadata map. -/
theorem registry_connections_match_info_keys (ops : List WSOp) (c : Nat) :
    c ∈ (ops.foldl applyOp WSState.init).active_connections ↔
      c ∈ keysOf (ops.foldl applyOp WSState.init).connection_info :=
  (WSInv_foldl_applyOp ops WSState.init WSInv_init).2.2 c

/-! ## Claim C1 -/

/-- Row construction succeeded: parsing and enrichment both returned. -/
def rowConstructs (jsonLoads : String → Except String Json)
    (getOrderById : Nat → Except String (Option Order))
    (r : DbChangeRow) : Prop :=
  ∃ ch res, OrderChange.from_db_row jsonLoads r = .ok ch ∧
    createNotification getOrderById ch = .ok res

/-- Row construction raised: parsing or enrichment threw. -/
def rowRaises (jsonLoads : String → Except String Json)
    (getOrderById : Nat → Except String (Option Order))
    (r : DbChangeRow) : Prop :=
  (∃ e, OrderChange.from_db_row jsonLoads r = .error e) ∨
  (∃ ch e, OrderChange.from_db_row jsonLoads r = .ok ch ∧
    createNotification getOrderById ch = .error e)

theorem from_db_row_id (jsonLoads : String → Except String Json)
    (r : DbChangeRow) (ch : OrderChange)
    (h : OrderChange.from_db_row jsonLoads r = .ok ch) : ch.id = r.id := by
  unfold OrderChange.from_db_row at h
  cases hop : parseOperation r.operation_type with
  | error e => rw [hop] at h; cases h
  | ok op =>
    rw [hop] at h
    cases hold : parsePayload jsonLoads r.old_data with
    | error e => rw [hold] at h; cases h
    | ok old =>
      rw [hold] at h
      cases hnew : parsePayload jsonLoads r.new_data with
      | error e => rw [hnew] at h; cases h
      | ok new =>
        rw [hnew] at h
        cases h
        rfl

theorem processChangeRow_acc {σ : Type} (jsonLoads : String → Except String Json)
    (getOrderById : Nat → Except String (Option Order))
    (run : σ → OrderChangeNotification → Except String Unit) (subs : List σ)
    (acc : List Nat) (r : DbChangeRow) :
    processChangeRow jsonLoads getOrderById run subs acc r =
      acc ++ processChangeRow jsonLoads getOrderById run subs [] r := by
  unfold processChangeRow
  cases hf : OrderChange.from_db_row jsonLoads r with
  | error e => simp
  | ok change =>
    cases hc : createNotification getOrderById change with
    | error e => simp [hc]
    | ok res =>
      obtain ⟨notification, tr⟩ := res
      simp [hc, notifySubscribers_eq]

theorem processChanges_cons {σ : Type} (jsonLoads : String → Except String Json)
    (getOrderById : Nat → Except String (Option Order))
    (run : σ → OrderChangeNotification → Except String Unit) (subs : List σ)
    (r : DbChangeRow) (rest : List DbChangeRow) :
    processChanges jsonLoads getOrderById run subs (r :: rest) =
      processChangeRow jsonLoads getOrderById run subs [] r ++
        processChanges jsonLoads getOrderById run subs rest := by
  have haux : ∀ (l : List DbChangeRow) (acc : List Nat),
      l.foldl (processChangeRow jsonLoads getOrderById run subs) acc =
        acc ++ l.foldl (processChangeRow jsonLoads getOrderById run subs) [] := by
    intro l
    induction l with
    | nil => intro acc; simp
    | cons x xs ih =>
      intro acc
      rw [List.foldl_cons, List.foldl_cons, ih, processChangeRow_acc,
        ih (processChangeRow jsonLoads getOrderById run subs [] x),
        List.append_assoc]
  unfold processChanges
  rw [List.foldl_cons, haux, processChangeRow_acc]

theorem processChangeRow_nil_ok {σ : Type} (jsonLoads : String → Except String Json)
    (getOrderById : Nat → Except String (Option Order))
    (run : σ → OrderChangeNotification → Except String Unit) (subs : List σ)
    (r : DbChangeRow) (h : rowConstructs jsonLoads getOrderById r) :
    processChangeRow jsonLoads getOrderById run subs [] r = [r.id] := by
  obtain ⟨ch, res, hfrom, hcreate⟩ := h
  obtain ⟨notification, tr⟩ := res
  unfold processChangeRow
  rw [hfrom]
  simp [hcreate, notifySubscribers_eq, from_db_row_id jsonLoads r ch hfrom]

theorem processChangeRow_nil_fail {σ : Type} (jsonLoads : String → Except String Json)
    (getOrderById : Nat → Except String (Option Order))
    (run : σ → OrderChangeNotification → Except String Unit) (subs : List σ)
    (r : DbChangeRow) (h : rowRaises jsonLoads getOrderById r) :
    processChangeRow jsonLoads getOrderById run subs [] r = [] := by
  unfold processChangeRow
  rcases h with ⟨e, he⟩ | ⟨ch, e, hfrom, hcreate⟩
  · rw [he]
  · rw [hfrom]
    simp [hcreate]

theorem processChangeRow_nil_cases {σ : Type}
    (jsonLoads : String → Except String Json)
    (getOrderById : Nat → Except String (Option Order))
    (run : σ → OrderChangeNotification → Except String Unit) (subs : List σ)
    (r : DbChangeRow) :
    processChangeRow jsonLoads getOrderById run subs [] r = [] ∨
      (processChangeRow jsonLoads getOrderById run subs [] r = [r.id] ∧
        rowConstructs jsonLoads getOrderById r) := by
  cases hfrom : OrderChange.from_db_row jsonLoads r with
  | error e =>
    left
    exact processChangeRow_nil_fail _ _ run subs r (Or.inl ⟨e, hfrom⟩)
  | ok ch =>
    cases hcreate : createNotification getOrderById ch with
    | error e =>
      left
      exact processChangeRow_nil_fail _ _ run subs r (Or.inr ⟨ch, e, hfrom, hcreate⟩)
    | ok res =>
      right
      have hc : rowConstructs jsonLoads getOrderById r := ⟨ch, res, hfrom, hcreate⟩
      exact ⟨processChangeRow_nil_ok _ _ run subs r hc, hc⟩

theorem processChanges_eq_of_ok {σ : Type}
    (jsonLoads : String → Except String Json)
    (getOrderById : Nat → Except String (Option Order))
    (run : σ → OrderChangeNotification → Except String Unit) (subs : List σ)
    (changes : List DbChangeRow)
    (hok : ∀ r ∈ changes, rowConstructs jsonLoads getOrderById r) :
    processChanges jsonLoads getOrderById run subs changes =
      changes.map DbChangeRow.id := by
  induction changes with
  | nil => rfl
  | cons r rest ih =>
    rw [processChanges_cons,
      processChangeRow_nil_ok _ _ run subs r (hok r (List.mem_cons_self r rest)),
      ih (fun r' hr' => hok r' (List.mem_cons_of_mem r hr'))]
    rfl

/-- Claim C1: when every row of the fetched batch parses and enriches without
raising, the `processed_ids` of the cycle are exactly the batch's ids (in
batch order), and the single batched `mark_changes_processed` call at the
end of the cycle receives exactly that id list — for every subscriber list
and every subscriber/delivery behaviour, i.e. even when all deliveries
fail. -/
theorem poll_cycle_marks_exactly_batch {σ : Type}
    (jsonLoads : String → Except String Json)
    (getOrderById : Nat → Except String (Option Order))
    (run : σ → OrderChangeNotification → Except String Unit) (subs : List σ)
    (table : List (DbChangeRow × Bool))
    (hok : ∀ r ∈ get_unprocessed_changes table,
      rowConstructs jsonLoads getOrderById r)
    (hne : get_unprocessed_changes table ≠ []) :
    processChanges jsonLoads getOrderById run subs
        (get_unprocessed_changes table) =
      (get_unprocessed_changes table).map DbChangeRow.id ∧
    (pollCycle jsonLoads getOrderById run subs table).2 =
      [(get_unprocessed_changes table).map DbChangeRow.id] := by
  have hpc := processChanges_eq_of_ok jsonLoads getOrderById run subs
    (get_unprocessed_changes table) hok
  refine ⟨hpc, ?_⟩
  unfold pollCycle
  have hni : (get_unprocessed_changes table).isEmpty = false := by
    cases h : get_unprocessed_changes table with
    | nil => exact absurd h hne
    | cons a l => rfl
  have hmapne : ((get_unprocessed_changes table).map DbChangeRow.id).isEmpty
      = false := by
    cases h : get_unprocessed_changes table with
    | nil => exact absurd h hne
    | cons a l => rfl
  simp only [hni, Bool.false_eq_true, if_false, hpc, hmapne]

theorem mergeSort_single {α : Type} (le : α → α → Bool) (a : α) :
    [a].mergeSort le = [a] :=
  List.perm_singleton.mp (List.mergeSort_perm [a] le)

theorem get_unprocessed_single (r : DbChangeRow) :
    get_unprocessed_changes [(r, false)] = [r] := by
  unfold get_unprocessed_changes
  simp [mergeSort_single]

/-- A well-formed UPDATE change-log row for witnesses. -/
def rowW : DbChangeRow :=
  { id := 1, order_id := 10, operation_type := "UPDATE",
    old_data := none, new_data := none, changed_at := 100 }

/-- A one-row change-log table for the C1 witness. -/
def tableW : List (DbChangeRow × Bool) := [(rowW, false)]

/-- A `json.loads` oracle that is never consulted (payloads are NULL). -/
def jsonLoadsW : String → Except String Json := fun _ => .error "unused"

/-- A store oracle whose current-record lookups always miss. -/
def getOrderW : Nat → Except String (Option Order) := fun _ => .ok none

/-- Claim C1 witness: a one-row batch whose only subscriber raises on every
delivery; the mark-processed call still receives exactly that row's id. -/
theorem poll_cycle_marks_witness :
    ((∀ r ∈ get_unprocessed_changes tableW,
        rowConstructs jsonLoadsW getOrderW r) ∧
      get_unprocessed_changes tableW ≠ []) ∧
    (processChanges jsonLoadsW getOrderW runW [0]
        (get_unprocessed_changes tableW) =
      (get_unprocessed_changes tableW).map DbChangeRow.id ∧
    (pollCycle jsonLoadsW getOrderW runW [0] tableW).2 =
      [(get_unprocessed_changes tableW).map DbChangeRow.id]) := by
  have hok : ∀ r ∈ get_unprocessed_changes tableW,
      rowConstructs jsonLoadsW getOrderW r := by
    rw [show tableW = [(rowW, false)] from rfl, get_unprocessed_single]
    intro r hr
    rw [List.mem_singleton] at hr
    subst hr
    exact ⟨_, _, rfl, rfl⟩
  have hne : get_unprocessed_changes tableW ≠ [] := by
    rw [show tableW = [(rowW, false)] from rfl, get_unprocessed_single]
    simp
  exact ⟨⟨hok, hne⟩,
    poll_cycle_marks_exactly_batch jsonLoadsW getOrderW runW [0] tableW hok hne⟩

/-! ## Claim C2 -/

theorem mem_processChanges {σ : Type} (jsonLoads : String → Except String Json)
    (getOrderById : Nat → Except String (Option Order))
    (run : σ → OrderChangeNotification → Except String Unit) (subs : List σ)
    (changes : List DbChangeRow) (x : Nat)
    (hx : x ∈ processChanges jsonLoads getOrderById run subs changes) :
    ∃ r ∈ changes, x = r.id ∧ rowConstructs jsonLoads getOrderById r := by
  induction changes with
  | nil => simp [processChanges] at hx
  | cons r rest ih =>
    rw [processChanges_cons] at hx
    rcases List.mem_append.mp hx with h1 | h2
    · rcases processChangeRow_nil_cases jsonLoads getOrderById run subs r with
        hc | ⟨heq, hcon⟩
      · rw [hc] at h1; cases h1
      · rw [heq, List.mem_singleton] at h1
        exact ⟨r, List.mem_cons_self r rest, h1, hcon⟩
    · obtain ⟨r', hr', hx', hc'⟩ := ih h2
      exact ⟨r', List.mem_cons_of_mem r hr', hx', hc'⟩

theorem mem_processChanges_of_ok {σ : Type}
    (jsonLoads : String → Except String Json)
    (getOrderById : Nat → Except String (Option Order))
    (run : σ → OrderChangeNotification → Except String Unit) (subs : List σ)
    (changes : List DbChangeRow) (r' : DbChangeRow)
    (hr : r' ∈ changes) (hc : rowConstructs jsonLoads getOrderById r') :
    r'.id ∈ processChanges jsonLoads getOrderById run subs changes := by
  induction changes with
  | nil => cases hr
  | cons r rest ih =>
    rw [processChanges_cons, List.mem_append]
    rcases List.mem_cons.mp hr with heq | hmem
    · subst heq
      left
      rw [processChangeRow_nil_ok jsonLoads getOrderById run subs r' hc]
      exact List.mem_singleton.mpr rfl
    · right; exact ih hmem

theorem not_constructs_and_raises (jsonLoads : String → Except String Json)
    (getOrderById : Nat → Except String (Option Order)) (r : DbChangeRow)
    (hc : rowConstructs jsonLoads getOrderById r)
    (hf : rowRaises jsonLoads getOrderById r) : False := by
  obtain ⟨ch, res, hfrom, hcreate⟩ := hc
  rcases hf with ⟨e, he⟩ | ⟨ch', e, hfrom', hcreate'⟩
  · rw [hfrom] at he; cases he
  · rw [hfrom] at hfrom'
    cases hfrom'
    rw [hcreate] at hcreate'
    cases hcreate'

theorem nodup_changes_ids (table : List (DbChangeRow × Bool))
    (h : (table.map (fun p => p.1.id)).Nodup) :
    ((get_unprocessed_changes table).map DbChangeRow.id).Nodup := by
  unfold get_unprocessed_changes
  have h1 : ((table.filter (fun p => p.2 = false)).map
      (fun p => p.1.id)).Nodup :=
    ((List.filter_sublist table).map (fun p => p.1.id)).nodup h
  have h2 : (((table.filter (fun p => p.2 = false)).map Prod.fst).map
      DbChangeRow.id).Nodup := by
    rw [List.map_map]; exact h1
  have h3 : ((((table.filter (fun p => p.2 = false)).map Prod.fst).mergeSort
      changeRowLE).map DbChangeRow.id).Nodup :=
    ((List.mergeSort_perm _ changeRowLE).map DbChangeRow.id).nodup_iff.mpr h2
  exact ((List.take_sublist 100 _).map DbChangeRow.id).nodup h3

theorem mem_table_of_mem_changes (table : List (DbChangeRow × Bool))
    (r : DbChangeRow) (h : r ∈ get_unprocessed_changes table) :
    (r, false) ∈ table := by
  unfold get_unprocessed_changes at h
  have h3 : r ∈ (((table.filter (fun p => p.2 = false)).map Prod.fst).mergeSort
      changeRowLE) := List.mem_of_mem_take h
  have h1 : r ∈ (table.filter (fun p => p.2 = false)).map Prod.fst :=
    List.mem_mergeSort.mp h3
  obtain ⟨p, hp, hpe⟩ := List.mem_map.mp h1
  have hpf := List.mem_filter.mp hp
  obtain ⟨r', b⟩ := p
  have hb : b = false := by simpa using hpf.2
  have hr' : r' = r := hpe
  rw [← hr', ← hb]
  exact hpf.1

theorem length_filter_map_le {α : Type} (g : α → α) (q : α → Bool)
    (l : List α) (h : ∀ p, q (g p) = true → q p = true) :
    ((l.map g).filter q).length ≤ (l.filter q).length := by
  induction l with
  | nil => simp
  | cons p t ih =>
    simp only [List.map_cons, List.filter_cons]
    by_cases hq : q (g p) = true
    · rw [if_pos hq, if_pos (h p hq)]
      simpa using Nat.succ_le_succ ih
    · rw [if_neg hq]
      by_cases hq2 : q p = true
      · rw [if_pos hq2]
        exact le_trans ih (by simp)
      · rw [if_neg hq2]; exact ih

theorem length_filter_mark_le (table : List (DbChangeRow × Bool))
    (pids : List Nat) :
    ((mark_changes_processed table pids).filter
        (fun p => p.2 = false)).length ≤
      (table.filter (fun p => p.2 = false)).length := by
  unfold mark_changes_processed
  apply length_filter_map_le
  intro p hq
  by_cases hid : p.1.id ∈ pids
  · rw [if_pos hid] at hq
    simp at hq
  · rw [if_neg hid] at hq
    exact hq

theorem pollCycle_fst {σ : Type} (jsonLoads : String → Except String Json)
    (getOrderById : Nat → Except String (Option Order))
    (run : σ → OrderChangeNotification → Except String Unit) (subs : List σ)
    (table : List (DbChangeRow × Bool)) :
    (pollCycle jsonLoads getOrderById run subs table).1 = table ∨
    (pollCycle jsonLoads getOrderById run subs table).1 =
      mark_changes_processed table (processChanges jsonLoads getOrderById
        run subs (get_unprocessed_changes table)) := by
  unfold pollCycle
  by_cases h1 : (get_unprocessed_changes table).isEmpty
  · left; simp [h1]
  · by_cases h2 : (processChanges jsonLoads getOrderById run subs
        (get_unprocessed_changes table)).isEmpty
    · left
      simp [eq_false_of_ne_true h1, h2]
    · right
      simp [eq_false_of_ne_true h1, eq_false_of_ne_true h2]

theorem mem_get_unprocessed_of_small (table' : List (DbChangeRow × Bool))
    (r : DbChangeRow) (hmem : (r, false) ∈ table')
    (hlen : (table'.filter (fun p => p.2 = false)).length ≤ 100) :
    r ∈ get_unprocessed_changes table' := by
  unfold get_unprocessed_changes
  have h1 : r ∈ (table'.filter (fun p => p.2 = false)).map Prod.fst :=
    List.mem_map.mpr ⟨(r, false), List.mem_filter.mpr ⟨hmem, by simp⟩, rfl⟩
  have h2 : r ∈ ((table'.filter (fun p => p.2 = false)).map Prod.fst).mergeSort
      changeRowLE := List.mem_mergeSort.mpr h1
  rw [List.take_of_length_le]
  · exact h2
  · rw [List.length_mergeSort, List.length_map]
    exact hlen

/-- Claim C2: when a batch row's parsing or enrichment raises, its id is excluded
from that cycle's `processed_ids`, every other successfully constructed row
of the batch is still processed, the failing row's change-log entry keeps
`processed = FALSE` through the cycle's batched update, and (the table's
ids being keys and at most 100 rows being unprocessed) it is fetched again
by the next poll. -/
theorem failed_row_retried {σ : Type} (jsonLoads : String → Except String Json)
    (getOrderById : Nat → Except String (Option Order))
    (run : σ → OrderChangeNotification → Except String Unit) (subs : List σ)
    (table : List (DbChangeRow × Bool)) (r : DbChangeRow)
    (hids : (table.map (fun p => p.1.id)).Nodup)
    (hcap : (table.filter (fun p => p.2 = false)).length ≤ 100)
    (hr : r ∈ get_unprocessed_changes table)
    (hfail : rowRaises jsonLoads getOrderById r) :
    r.id ∉ processChanges jsonLoads getOrderById run subs
        (get_unprocessed_changes table) ∧
    (∀ r' ∈ get_unprocessed_changes table,
      rowConstructs jsonLoads getOrderById r' →
        r'.id ∈ processChanges jsonLoads getOrderById run subs
          (get_unprocessed_changes table)) ∧
    (r, false) ∈ (pollCycle jsonLoads getOrderById run subs table).1 ∧
    r ∈ get_unprocessed_changes
        (pollCycle jsonLoads getOrderById run subs table).1 := by
  have hnotin : r.id ∉ processChanges jsonLoads getOrderById run subs
      (get_unprocessed_changes table) := by
    intro hmem
    obtain ⟨r'', hr'', heq, hcon⟩ :=
      mem_processChanges jsonLoads getOrderById run subs _ r.id hmem
    have hinj := List.inj_on_of_nodup_map (nodup_changes_ids table hids)
    have : r = r'' := hinj hr hr'' heq
    rw [← this] at hcon
    exact not_constructs_and_raises jsonLoads getOrderById r hcon hfail
  have hmemtable : (r, false) ∈ table := mem_table_of_mem_changes table r hr
  have hmem' : (r, false) ∈ (pollCycle jsonLoads getOrderById run subs table).1 := by
    rcases pollCycle_fst jsonLoads getOrderById run subs table with h | h
    · rw [h]; exact hmemtable
    · rw [h]
      unfold mark_changes_processed
      have : ((r, false) : DbChangeRow × Bool) =
          (fun p : DbChangeRow × Bool =>
            if p.1.id ∈ processChanges jsonLoads getOrderById run subs
                (get_unprocessed_changes table) then (p.1, true) else p)
            (r, false) := by
        simp [hnotin]
      rw [this]
      exact List.mem_map_of_mem _ hmemtable
  have hlen' : ((pollCycle jsonLoads getOrderById run subs table).1.filter
      (fun p => p.2 = false)).length ≤ 100 := by
    rcases pollCycle_fst jsonLoads getOrderById run subs table with h | h
    · rw [h]; exact hcap
    · rw [h]
      exact le_trans (length_filter_mark_le table _) hcap
  refine ⟨hnotin, ?_, hmem', ?_⟩
  · intro r' hr' hc'
    exact mem_processChanges_of_ok jsonLoads getOrderById run subs _ r' hr' hc'
  · exact mem_get_unprocessed_of_small _ r hmem' hlen'

/-- A malformed change-log row (invalid operation) for the C2 witness. -/
def rowF : DbChangeRow :=
  { id := 2, order_id := 20, operation_type := "BOGUS",
    old_data := none, new_data := none, changed_at := 50 }

/-- Claim C2 witness: a one-row table whose row fails to parse; it is not in the
processed set, keeps `processed = FALSE`, and is fetched again. -/
theorem failed_row_retried_witness :
    (([(rowF, false)].map (fun p => p.1.id)).Nodup ∧
      ([(rowF, false)].filter (fun p => p.2 = false)).length ≤ 100 ∧
      rowF ∈ get_unprocessed_changes [(rowF, false)] ∧
      rowRaises jsonLoadsW getOrderW rowF) ∧
    (rowF.id ∉ processChanges jsonLoadsW getOrderW runW [0]
        (get_unprocessed_changes [(rowF, false)]) ∧
      (∀ r' ∈ get_unprocessed_changes [(rowF, false)],
        rowConstructs jsonLoadsW getOrderW r' →
          r'.id ∈ processChanges jsonLoadsW getOrderW runW [0]
            (get_unprocessed_changes [(rowF, false)])) ∧
      (rowF, false) ∈ (pollCycle jsonLoadsW getOrderW runW [0]
        [(rowF, false)]).1 ∧
      rowF ∈ get_unprocessed_changes
        (pollCycle jsonLoadsW getOrderW runW [0] [(rowF, false)]).1) := by
  have hr : rowF ∈ get_unprocessed_changes [(rowF, false)] := by
    rw [get_unprocessed_single]
    exact List.mem_singleton.mpr rfl
  have hfail : rowRaises jsonLoadsW getOrderW rowF := Or.inl ⟨_, rfl⟩
  exact ⟨⟨by simp, by simp, hr, hfail⟩,
    failed_row_retried jsonLoadsW getOrderW runW [0] [(rowF, false)] rowF
      (by simp) (by simp) hr hfail⟩

end RealtimeOrders
